import Mathlib

/-
Verification of the soft-delete plugin (src/index.js) against its
natural-language specification.  The JavaScript source is shallowly
embedded: attribute values become an inductive `Value`, objects become
association lists, the asynchronous destroy pipeline becomes a pure
function that returns its result together with an explicit trace of the
observable effects (event emissions, the SQL update, relation fetches
and recursive destroy invocations), and the configuration object becomes
the `Settings` structure.
-/

set_option autoImplicit false

namespace BookshelfParanoia

/-- Attribute values stored on a model: SQL null, booleans, numbers,
strings and date stamps (dates abstracted as natural numbers). -/
inductive Value where
  | null : Value
  | bool : Bool → Value
  | num : Int → Value
  | str : String → Value
  | date : Nat → Value
deriving DecidableEq

/-- A JavaScript object holding column values: an association list from
column names to values (first binding wins on lookup). -/
abbrev Obj : Type := List (String × Value)

/-- Property lookup on an object, first binding wins. -/
def objGet : Obj → String → Option Value
  | [], _ => none
  | (k, v) :: t, a => if k = a then some v else objGet t a

/-- lodash merge of two plain objects restricted to one level: keys of
`src` override keys of `dst`, keys only in `dst` are kept. -/
def mergeObj (dst src : Obj) : Obj :=
  dst.filter (fun p => (objGet src p.1).isNone) ++ src

/-- The per-event enable flags of `settings.events`
(src/index.js lines 23-30). -/
structure EventsConfig where
  destroying : Bool
  updating : Bool
  saving : Bool
  destroyed : Bool
  updated : Bool
  saved : Bool
deriving DecidableEq

/-- The plugin settings after the defaulting merge at src/index.js
lines 20-31.  `events = none` models a falsy `settings.events`. -/
structure Settings where
  field : String
  sentinel : Option String
  events : Option EventsConfig
deriving DecidableEq

/-- The default configuration produced when the caller supplies no
settings (src/index.js lines 20-31). -/
def defaultSettings : Settings :=
  { field := "deleted_at"
    sentinel := none
    events := some
      { destroying := true
        updating := false
        saving := false
        destroyed := true
        updated := false
        saved := false } }

/-- The options record seen by `skipDeleted`: `isEager` and
`parentResponse` model the truthiness of those keys, `withDeleted`
models `options.withDeleted === true`. -/
structure ReadOptions where
  isEager : Bool
  parentResponse : Bool
  withDeleted : Bool
deriving DecidableEq

/-- Embedding of `skipDeleted` (src/index.js lines 42-50).  The query is
the list of whereNull column references accumulated so far; the JS
arguments `model` and `attrs` are unused by the source body and omitted.
`softDelete` is the resolved flag
`this.model ? this.model.prototype.softDelete : this.softDelete`, and
`tableName` is the lodash result helper applied to tableName.  The same function serves
the model `fetching`, collection `fetching`, `fetching:collection` and
`counting` hooks. -/
def skipDeleted (s : Settings) (softDelete : Bool) (tableName : String)
    (o : ReadOptions) (query : List String) : List String :=
  if !o.isEager || o.parentResponse then
    if softDelete && !o.withDeleted then
      query ++ [tableName ++ "." ++ s.field]
    else query
  else query

/-- Modelled from the spec (amended reading of the read filter): append
the null-marker predicate exactly when the type is soft-deletable, the
call does not pass `withDeleted: true`, and the query is not an
eager-load sub-query lacking a parent response. -/
def readFilterSpec (s : Settings) (softDelete : Bool) (tableName : String)
    (o : ReadOptions) (query : List String) : List String :=
  if softDelete && !o.withDeleted && !(o.isEager && !o.parentResponse) then
    query ++ [tableName ++ "." ++ s.field]
  else query

/-- The destroy-call options object (src/index.js lines 90-98).
`hardDelete` and `require` model truthiness of those keys; `method`,
`patch`, `softDelete` and `previousAttributes` are the keys written by
the plugin itself (absent on entry when the caller did not set them);
`transacting` is an abstract transaction handle. -/
structure DestroyOptions where
  hardDelete : Bool
  require : Bool
  transacting : Option Nat
  method : Option String
  patch : Option Bool
  softDelete : Option Bool
  previousAttributes : Option Obj
deriving DecidableEq

/-- The empty options object created by `options = options || {}`. -/
def emptyOptions : DestroyOptions :=
  { hardDelete := false
    require := false
    transacting := none
    method := none
    patch := none
    softDelete := none
    previousAttributes := none }

/-- The in-place lodash merge at src/index.js lines 94-98:
the lodash merge of the caller options with method = update,
patch = true and softDelete = true. -/
def mergedOptions (o : DestroyOptions) : DestroyOptions :=
  { o with method := some "update", patch := some true, softDelete := some true }

/-- What a cascaded relation fetch resolved to: a single related model,
no related model (`null`), or a related collection of instances
(identified abstractly by numbers). -/
inductive FetchResult where
  | modelSome : Nat → FetchResult
  | modelNone : FetchResult
  | collection : List Nat → FetchResult
deriving DecidableEq

/-- Resolved relation metadata for one name of `this.dependents`
(src/index.js lines 178-180): the `softDelete` flag of the related
target prototype, the relation type string, and what fetching the
relation resolves to. -/
structure RelationMeta where
  targetSoftDelete : Bool
  relType : String
  fetch : FetchResult

/-- One observable effect of the destroy pipeline, in program order:
lifecycle event emissions (payload as passed to `triggerThen`, minus
the receiver model itself), the knex update, the cascade fetches and
recursive destroy invocations, and the delegation to the original
`Model.prototype.destroy`. -/
inductive Effect where
  | emitDestroying : DestroyOptions → Effect
  | emitSaving : Obj → DestroyOptions → Effect
  | emitUpdating : Obj → DestroyOptions → Effect
  | dbUpdate : String → Option Nat → Obj → String → String → Option Value → Effect
  | emitDestroyed : DestroyOptions → Effect
  | emitSaved : List Value → DestroyOptions → Effect
  | emitUpdated : List Value → DestroyOptions → Effect
  | relationFetch : String → Option Nat → Effect
  | childDestroy : Nat → Option Nat → Effect
  | hardDestroy : DestroyOptions → Effect
deriving DecidableEq

/-- How a destroy call settles. -/
inductive DestroyResult where
  | ok : DestroyResult
  | noRowsDeleted : DestroyResult
  | eventError : DestroyResult
  | delegated : DestroyResult
deriving DecidableEq

/-- An instantiated bookshelf model, with the pieces of state the
plugin touches: the prototype `softDelete` flag, table and identifier
names, current attributes, the previous-attributes snapshot and the
changed-tracking flag, the per-instance defaults, the `dependents`
relation names and the `format` hook. -/
structure Model where
  softDelete : Bool
  tableName : String
  idAttribute : String
  attributes : Obj
  prevAttributes : Obj
  changedState : Bool
  defaults : Option Obj
  dependents : List String
  format : Obj → Obj

/-- The environment a destroy call runs against: the clock, the
settled outcome of every lifecycle event emission (true = some handler
rejected), the response of the knex update (empty = zero rows
affected), and relation resolution for the cascade. -/
structure Env where
  now : Nat
  destroyingFail : Bool
  savingFail : Bool
  updatingFail : Bool
  destroyedFail : Bool
  savedFail : Bool
  updatedFail : Bool
  resp : List Value
  relations : String → RelationMeta

/-- The marker attributes of src/index.js lines 101-108: the marker
field set to the current date, the sentinel (when configured) nulled,
the whole object passed through `this.format`. -/
def computeAttrs (s : Settings) (m : Model) (now : Nat) : Obj :=
  m.format ((s.field, Value.date now) ::
    (match s.sentinel with
     | some snt => [(snt, Value.null)]
     | none => []))

/-- The pre-update event emissions of src/index.js lines 110-131, in
enumeration order destroying, saving, updating, gated per flag. -/
def preEvents (s : Settings) (attrs : Obj) (o : DestroyOptions) : List Effect :=
  match s.events with
  | none => []
  | some ev =>
    (if ev.destroying then [Effect.emitDestroying o] else []) ++
    (if ev.saving then [Effect.emitSaving attrs o] else []) ++
    (if ev.updating then [Effect.emitUpdating attrs o] else [])

/-- Whether some enabled pre-update event handler rejects, failing the
`Promise.all` of src/index.js line 131. -/
def preFail (s : Settings) (env : Env) : Bool :=
  match s.events with
  | none => false
  | some ev =>
    (ev.destroying && env.destroyingFail) ||
    (ev.saving && env.savingFail) ||
    (ev.updating && env.updatingFail)

/-- The knex update of src/index.js lines 133-141:
`knex.update(attrs, this.idAttribute).where({id: this.get(this.idAttribute)})`,
optionally joined to `options.transacting`.  Fields: table, joined
transaction, written attrs, returning column, where column (the string
literal "id" in the source) and where value (`this.get(this.idAttribute)`). -/
def updateEffect (m : Model) (o : DestroyOptions) (attrs : Obj) : Effect :=
  Effect.dbUpdate m.tableName o.transacting attrs m.idAttribute "id"
    (objGet m.attributes m.idAttribute)

/-- The post-update event emissions of src/index.js lines 157-172, in
enumeration order destroyed, saved, updated, gated per flag. -/
def postEvents (ev : EventsConfig) (resp : List Value) (o : DestroyOptions) : List Effect :=
  (if ev.destroyed then [Effect.emitDestroyed o] else []) ++
  (if ev.saved then [Effect.emitSaved resp o] else []) ++
  (if ev.updated then [Effect.emitUpdated resp o] else [])

/-- Whether some enabled post-update event handler rejects. -/
def postFail (ev : EventsConfig) (env : Env) : Bool :=
  (ev.destroyed && env.destroyedFail) ||
  (ev.saved && env.savedFail) ||
  (ev.updated && env.updatedFail)

/-- Whether some enabled post-update event handler rejects, over the
optional events configuration. -/
def postFailS (s : Settings) (env : Env) : Bool :=
  match s.events with
  | none => false
  | some ev => postFail ev env

/-- The destroy invocations issued for one fetched relation
(src/index.js lines 186-198): a single fetched model gets one
`destroy(destOps)`, a `null` fetch is a no-op, and a fetched collection
gets a destroy invocation with destOps over each of its members. -/
def childDestroys : FetchResult → Option Nat → List Effect
  | FetchResult.modelSome i, t => [Effect.childDestroy i t]
  | FetchResult.modelNone, _ => []
  | FetchResult.collection ids, t => ids.map (fun i => Effect.childDestroy i t)

/-- The cascade handling of one name of `this.dependents`
(src/index.js lines 177-199): resolve the relation; when the related
target is soft-deletable and the relation type is not `belongsToMany`,
fetch it (the source calls `relation.fetch()` with no options, so no
transaction handle accompanies the fetch) and destroy what it resolved
to, passing `destOps` (holding only the transaction handle); otherwise
do nothing. -/
def cascadeOne (env : Env) (t : Option Nat) (d : String) : List Effect :=
  if (env.relations d).targetSoftDelete && (env.relations d).relType != "belongsToMany" then
    Effect.relationFetch d none :: childDestroys (env.relations d).fetch t
  else []

/-- The cascade step of src/index.js lines 174-203: when `dependents`
is non-empty, handle every named relation (sibling cascades are
issued together and awaited with `Promise.all`). -/
def cascadeStep (env : Env) (deps : List String) (t : Option Nat) : List Effect :=
  if deps.isEmpty then [] else deps.flatMap (cascadeOne env t)

/-- The in-memory state mutation of src/index.js lines 152-155:
`this.set(attrs)` merges the marker attrs over the attributes (setting
the previous-attributes snapshot to the pre-set attributes), then
`this._reset()` re-clones the snapshot from the new attributes and
clears changed tracking. -/
def applyMark (m : Model) (attrs : Obj) : Model :=
  { m with
    attributes := mergeObj m.attributes attrs
    prevAttributes := mergeObj m.attributes attrs
    changedState := false }

/-- What a destroy call settles to, together with the effect trace, the
final state of the (in-place mutated) options object and the final
model state. -/
structure DestroyOutcome where
  result : DestroyResult
  effects : List Effect
  options : DestroyOptions
  model : Model

/-- The handler of the update response and everything after it
(src/index.js lines 143-204): the zero-rows require check, the
events-disabled early return, the in-memory mutation, the post events
and the cascade.  `o` is the already-merged options object. -/
def afterUpdate (s : Settings) (env : Env) (m : Model) (o : DestroyOptions)
    (attrs : Obj) : DestroyOutcome :=
  let pre := preEvents s attrs o
  let upd := updateEffect m o attrs
  if env.resp.isEmpty && o.require then
    { result := DestroyResult.noRowsDeleted
      effects := pre ++ [upd]
      options := o
      model := m }
  else
    match s.events with
    | none =>
      { result := DestroyResult.ok
        effects := pre ++ [upd] ++ cascadeStep env m.dependents o.transacting
        options := o
        model := m }
    | some ev =>
      let o2 := { o with previousAttributes := some m.attributes }
      let m3 := applyMark m attrs
      let post := postEvents ev env.resp o2
      if postFail ev env then
        { result := DestroyResult.eventError
          effects := pre ++ [upd] ++ post
          options := o2
          model := m3 }
      else
        { result := DestroyResult.ok
          effects := pre ++ [upd] ++ post ++ cascadeStep env m3.dependents o2.transacting
          options := o2
          model := m3 }

/-- The soft-delete branch of `destroy` (src/index.js lines 92-204),
after the options merge: compute the marker attrs, emit the pre events
and abort on a handler rejection, otherwise run the update and the
rest of the pipeline. -/
def softDestroy (s : Settings) (env : Env) (m : Model) (o : DestroyOptions) : DestroyOutcome :=
  let attrs := computeAttrs s m env.now
  if preFail s env then
    { result := DestroyResult.eventError
      effects := preEvents s attrs o
      options := o
      model := m }
  else afterUpdate s env m o attrs

/-- Embedding of the overridden `Model.destroy` (src/index.js lines
90-208).  `options0 = none` models a call with no options argument.
When the model is soft-deletable and `hardDelete` is not set, the
soft-delete pipeline runs on the in-place merged options; otherwise the
call delegates to the original `modelPrototype.destroy` with the same
options. -/
def destroy (s : Settings) (env : Env) (m : Model)
    (options0 : Option DestroyOptions) : DestroyOutcome :=
  let o := options0.getD emptyOptions
  if m.softDelete && !o.hardDelete then
    softDestroy s env m (mergedOptions o)
  else
    { result := DestroyResult.delegated
      effects := [Effect.hardDestroy o]
      options := o
      model := m }

/-- The defaults extension in the model `initialize` override
(src/index.js lines 69-80): when the type is soft-deletable and a
sentinel is configured, `this.defaults` becomes
the lodash merge of the sentinel-to-true binding with the existing
defaults
(the existing defaults override the injected sentinel default);
otherwise the defaults are left unchanged. -/
def initDefaults (s : Settings) (softDelete : Bool) (defaults0 : Option Obj) : Option Obj :=
  match s.sentinel with
  | some snt =>
    if softDelete then
      some (mergeObj [(snt, Value.bool true)] (defaults0.getD []))
    else defaults0
  | none => defaults0

/-- Classifies the pre-update lifecycle event emissions. -/
def isPreEventEffect : Effect → Bool
  | Effect.emitDestroying _ => true
  | Effect.emitSaving _ _ => true
  | Effect.emitUpdating _ _ => true
  | _ => false

/-- Classifies the post-update lifecycle event emissions. -/
def isPostEventEffect : Effect → Bool
  | Effect.emitDestroyed _ => true
  | Effect.emitSaved _ _ => true
  | Effect.emitUpdated _ _ => true
  | _ => false

/-- The options object carried by a lifecycle event emission or by the
delegated hard delete. -/
def effectOptions : Effect → Option DestroyOptions
  | Effect.emitDestroying o => some o
  | Effect.emitSaving _ o => some o
  | Effect.emitUpdating _ o => some o
  | Effect.emitDestroyed o => some o
  | Effect.emitSaved _ o => some o
  | Effect.emitUpdated _ o => some o
  | Effect.hardDestroy o => some o
  | _ => none

/-- The post-update event emissions as a function of the optional
events configuration, carrying the options object extended with the
previous-attributes snapshot. -/
def postStep (s : Settings) (env : Env) (m : Model) (o : DestroyOptions) : List Effect :=
  match s.events with
  | none => []
  | some ev => postEvents ev env.resp { o with previousAttributes := some m.attributes }

theorem mem_preEvents {s : Settings} {attrs : Obj} {o : DestroyOptions}
    {e : Effect} (he : e ∈ preEvents s attrs o) :
    isPreEventEffect e = true ∧ effectOptions e = some o := by
  unfold preEvents at he
  match hs : s.events with
  | none => rw [hs] at he; cases he
  | some ev =>
    rw [hs] at he
    simp only [List.mem_append] at he
    rcases he with (he | he) | he <;>
      split at he <;>
      simp only [List.mem_singleton, List.not_mem_nil] at he <;>
      subst he <;>
      exact ⟨rfl, rfl⟩

theorem mem_postEvents {ev : EventsConfig} {resp : List Value} {o : DestroyOptions}
    {e : Effect} (he : e ∈ postEvents ev resp o) :
    isPostEventEffect e = true ∧ effectOptions e = some o := by
  unfold postEvents at he
  simp only [List.mem_append] at he
  rcases he with (he | he) | he <;>
    split at he <;>
    simp only [List.mem_singleton, List.not_mem_nil] at he <;>
    subst he <;>
    exact ⟨rfl, rfl⟩

theorem mem_cascadeStep {env : Env} {deps : List String} {t : Option Nat}
    {e : Effect} (he : e ∈ cascadeStep env deps t) :
    isPreEventEffect e = false ∧ isPostEventEffect e = false := by
  unfold cascadeStep at he
  split at he
  · cases he
  · simp only [List.mem_flatMap] at he
    obtain ⟨d, _, he⟩ := he
    unfold cascadeOne at he
    split at he
    · simp only [List.mem_cons] at he
      rcases he with he | he
      · subst he; exact ⟨rfl, rfl⟩
      · unfold childDestroys at he
        split at he <;>
          simp only [List.mem_singleton, List.not_mem_nil, List.mem_map] at he
        · subst he; exact ⟨rfl, rfl⟩
        · obtain ⟨i, _, hi⟩ := he; subst hi; exact ⟨rfl, rfl⟩
    · cases he

theorem cascadeStep_eq_flatMap (env : Env) (deps : List String) (t : Option Nat) :
    cascadeStep env deps t = deps.flatMap (cascadeOne env t) := by
  unfold cascadeStep
  split
  · rename_i h
    rw [List.isEmpty_iff.mp h]
    rfl
  · rfl

theorem objGet_append (a b : Obj) (k : String) :
    objGet (a ++ b) k =
      match objGet a k with
      | some v => some v
      | none => objGet b k := by
  induction a with
  | nil => rfl
  | cons p t ih =>
    obtain ⟨k1, v1⟩ := p
    by_cases h : k1 = k
    · simp [objGet, h]
    · simpa [objGet, h] using ih

theorem objGet_filter_of_some {src : Obj} {k : String}
    (h : (objGet src k).isSome) (dst : Obj) :
    objGet (dst.filter (fun p => (objGet src p.1).isNone)) k = none := by
  induction dst with
  | nil => rfl
  | cons p t ih =>
    obtain ⟨k1, v1⟩ := p
    by_cases hk : k1 = k
    · subst hk
      have hnone : (objGet src k1).isNone = false := by
        cases hs : objGet src k1
        · rw [hs] at h; cases h
        · rfl
      simp [List.filter, hnone, ih]
    · by_cases hf : (objGet src k1).isNone
      · simp [List.filter, hf, objGet, hk, ih]
      · simp [List.filter, hf, ih]

theorem objGet_filter_of_none {src : Obj} {k : String}
    (h : objGet src k = none) (dst : Obj) :
    objGet (dst.filter (fun p => (objGet src p.1).isNone)) k = objGet dst k := by
  induction dst with
  | nil => rfl
  | cons p t ih =>
    obtain ⟨k1, v1⟩ := p
    by_cases hk : k1 = k
    · subst hk
      have hkeep : (objGet src k1).isNone = true := by rw [h]; rfl
      simp [List.filter, hkeep, objGet]
    · by_cases hf : (objGet src k1).isNone
      · simp [List.filter, hf, objGet, hk, ih]
      · simp [List.filter, hf, objGet, hk, ih]

/-- Lookup through the lodash merge: a key bound in the source object
takes its source value, any other key keeps its destination value. -/
theorem objGet_mergeObj (dst src : Obj) (k : String) :
    objGet (mergeObj dst src) k =
      match objGet src k with
      | some v => some v
      | none => objGet dst k := by
  unfold mergeObj
  rw [objGet_append]
  cases hs : objGet src k
  · rw [objGet_filter_of_none hs dst]
    cases hd : objGet dst k <;> simp [hd, hs]
  · rw [objGet_filter_of_some (by rw [hs]; rfl) dst]

theorem destroy_soft_eq (s : Settings) (env : Env) (m : Model) (o : DestroyOptions)
    (hsd : m.softDelete = true) (hhd : o.hardDelete = false) :
    destroy s env m (some o) = softDestroy s env m (mergedOptions o) := by
  unfold destroy
  simp [hsd, hhd, Option.getD]

theorem destroy_hard_eq (s : Settings) (env : Env) (m : Model) (o : DestroyOptions)
    (h : (m.softDelete && !o.hardDelete) = false) :
    destroy s env m (some o) =
      { result := DestroyResult.delegated
        effects := [Effect.hardDestroy o]
        options := o
        model := m } := by
  unfold destroy
  simp [h, Option.getD]

theorem softDestroy_preFail_true (s : Settings) (env : Env) (m : Model) (o : DestroyOptions)
    (hp : preFail s env = true) :
    softDestroy s env m o =
      { result := DestroyResult.eventError
        effects := preEvents s (computeAttrs s m env.now) o
        options := o
        model := m } := by
  unfold softDestroy
  simp [hp]

theorem softDestroy_preFail_false (s : Settings) (env : Env) (m : Model) (o : DestroyOptions)
    (hp : preFail s env = false) :
    softDestroy s env m o = afterUpdate s env m o (computeAttrs s m env.now) := by
  unfold softDestroy
  simp [hp]

theorem afterUpdate_noRows (s : Settings) (env : Env) (m : Model) (o : DestroyOptions)
    (attrs : Obj) (hr : env.resp.isEmpty = true) (hq : o.require = true) :
    afterUpdate s env m o attrs =
      { result := DestroyResult.noRowsDeleted
        effects := preEvents s attrs o ++ [updateEffect m o attrs]
        options := o
        model := m } := by
  unfold afterUpdate
  simp [hr, hq]

theorem afterUpdate_proceed_none (s : Settings) (env : Env) (m : Model) (o : DestroyOptions)
    (attrs : Obj) (hc : (env.resp.isEmpty && o.require) = false) (hev : s.events = none) :
    afterUpdate s env m o attrs =
      { result := DestroyResult.ok
        effects := preEvents s attrs o ++ [updateEffect m o attrs] ++
          cascadeStep env m.dependents o.transacting
        options := o
        model := m } := by
  unfold afterUpdate
  simp [hc, hev]

theorem afterUpdate_postFail_true (s : Settings) (env : Env) (m : Model) (o : DestroyOptions)
    (attrs : Obj) (ev : EventsConfig)
    (hc : (env.resp.isEmpty && o.require) = false) (hev : s.events = some ev)
    (hpf : postFail ev env = true) :
    afterUpdate s env m o attrs =
      { result := DestroyResult.eventError
        effects := preEvents s attrs o ++ [updateEffect m o attrs] ++
          postEvents ev env.resp { o with previousAttributes := some m.attributes }
        options := { o with previousAttributes := some m.attributes }
        model := applyMark m attrs } := by
  unfold afterUpdate
  simp [hc, hev, hpf]

theorem afterUpdate_postFail_false (s : Settings) (env : Env) (m : Model) (o : DestroyOptions)
    (attrs : Obj) (ev : EventsConfig)
    (hc : (env.resp.isEmpty && o.require) = false) (hev : s.events = some ev)
    (hpf : postFail ev env = false) :
    afterUpdate s env m o attrs =
      { result := DestroyResult.ok
        effects := preEvents s attrs o ++ [updateEffect m o attrs] ++
          postEvents ev env.resp { o with previousAttributes := some m.attributes } ++
          cascadeStep env m.dependents o.transacting
        options := { o with previousAttributes := some m.attributes }
        model := applyMark m attrs } := by
  unfold afterUpdate
  simp [hc, hev, hpf]
  rfl

/-- Shared fixture: a benign environment where no event handler
rejects, the update reports one affected row and every relation
resolves to a soft-deletable hasMany collection with two members. -/
def wEnv : Env :=
  { now := 99
    destroyingFail := false
    savingFail := false
    updatingFail := false
    destroyedFail := false
    savedFail := false
    updatedFail := false
    resp := [Value.num 1]
    relations := fun _ =>
      { targetSoftDelete := true
        relType := "hasMany"
        fetch := FetchResult.collection [5, 6] } }

/-- Shared fixture: a soft-deletable order model with one dependent
relation and the identity format hook. -/
def wModel : Model :=
  { softDelete := true
    tableName := "orders"
    idAttribute := "id"
    attributes := [("id", Value.num 42)]
    prevAttributes := [("id", Value.num 42)]
    changedState := false
    defaults := none
    dependents := ["items"]
    format := fun a => a }

/-- Read options of a nested eager-load sub-query that has no parent
response, with `withDeleted` unset. -/
def eagerNoParentRead : ReadOptions :=
  { isEager := true, parentResponse := false, withDeleted := false }

/-- C2 counterexample: on a soft-deletable type with `withDeleted` not
true, a fetch that is an eager-load sub-query without a parent response
leaves the query untouched, so the claim that every such fetch gets the
null-marker predicate appended fails at this input. -/
theorem skipDeleted_eager_counterexample :
    skipDeleted defaultSettings true "users" eagerNoParentRead [] = [] ∧
    skipDeleted defaultSettings true "users" eagerNoParentRead [] ≠
      [] ++ ["users" ++ "." ++ defaultSettings.field] := by
  exact ⟨rfl, by decide⟩

/-- C2 (amended): the filter step appends the table-qualified
null-marker predicate exactly when the type is soft-deletable, the call
does not pass `withDeleted: true`, and the query is not an eager-load
sub-query lacking a parent response; in every other case the query is
left unchanged.  Stated as equality between the source embedding and a
definition written from the amended specification text. -/
theorem skipDeleted_matches_readFilterSpec :
    ∀ (s : Settings) (sd : Bool) (tn : String) (o : ReadOptions) (q : List String),
      skipDeleted s sd tn o q = readFilterSpec s sd tn o q := by
  intro s sd tn o q
  obtain ⟨ie, pr, wd⟩ := o
  cases ie <;> cases pr <;> cases wd <;> cases sd <;> rfl

/-- C4 counterexample: at `isEager = true, parentResponse` absent,
`withDeleted` unset, on a soft-deletable type, none of the three skip
conditions stated by the claim holds, yet the filter is skipped: the
query comes back unchanged instead of gaining the predicate. -/
theorem skipDeleted_skip_condition_counterexample :
    eagerNoParentRead.withDeleted = false ∧
    ¬(eagerNoParentRead.isEager = true ∧ eagerNoParentRead.parentResponse = true) ∧
    skipDeleted defaultSettings true "orders" eagerNoParentRead ["p"] = ["p"] := by
  exact ⟨rfl, by decide, rfl⟩

/-- C4 (amended): the read filter is skipped exactly when
`withDeleted = true`, or the type is not soft-deletable, or the query
is an eager-load sub-query with NO parent response present; in every
other case on a soft-deletable type the predicate is appended (so the
query changes). -/
theorem skipDeleted_skipped_iff :
    ∀ (s : Settings) (sd : Bool) (tn : String) (o : ReadOptions) (q : List String),
      skipDeleted s sd tn o q = q ↔
        (o.withDeleted = true ∨ sd = false ∨
          (o.isEager = true ∧ o.parentResponse = false)) := by
  intro s sd tn o q
  obtain ⟨ie, pr, wd⟩ := o
  cases ie <;> cases pr <;> cases wd <;> cases sd <;>
    simp [skipDeleted]

/-- C1: on a soft-deletable model with `require = true` and
`hardDelete` unset, the destroy call settles with the NoRowsDeletedError
exactly when the pipeline reaches the update (no pre-event handler
rejected) and the update response is empty; and on that failure the
model state is untouched, the effect trace stops right after the update
(so no post-operation lifecycle events and no cascade), and the options
object gains no previous-attributes snapshot. -/
theorem destroy_noRowsDeleted_iff (s : Settings) (env : Env) (m : Model) (o : DestroyOptions)
    (hsd : m.softDelete = true) (hhd : o.hardDelete = false) (hreq : o.require = true) :
    ((destroy s env m (some o)).result = DestroyResult.noRowsDeleted ↔
      preFail s env = false ∧ env.resp = []) ∧
    ((destroy s env m (some o)).result = DestroyResult.noRowsDeleted →
      (destroy s env m (some o)).model = m ∧
      (destroy s env m (some o)).effects =
        preEvents s (computeAttrs s m env.now) (mergedOptions o) ++
          [updateEffect m (mergedOptions o) (computeAttrs s m env.now)] ∧
      (destroy s env m (some o)).options = mergedOptions o) := by
  have hd := destroy_soft_eq s env m o hsd hhd
  cases hp : preFail s env with
  | true =>
    rw [hd, softDestroy_preFail_true s env m (mergedOptions o) hp]
    exact ⟨by simp, fun h => absurd h (by simp)⟩
  | false =>
    rw [hd, softDestroy_preFail_false s env m (mergedOptions o) hp]
    cases hr : env.resp.isEmpty with
    | true =>
      rw [afterUpdate_noRows s env m (mergedOptions o) (computeAttrs s m env.now) hr hreq]
      exact ⟨by simp [List.isEmpty_iff.mp hr], fun _ => ⟨rfl, rfl, rfl⟩⟩
    | false =>
      have hne : ¬env.resp = [] := by
        intro h
        rw [h] at hr
        cases hr
      have hc : (env.resp.isEmpty && (mergedOptions o).require) = false := by
        simp [hr]
      cases hev : s.events with
      | none =>
        rw [afterUpdate_proceed_none s env m (mergedOptions o)
          (computeAttrs s m env.now) hc hev]
        exact ⟨by simp [hne], fun h => absurd h (by simp)⟩
      | some ev =>
        cases hpf : postFail ev env with
        | true =>
          rw [afterUpdate_postFail_true s env m (mergedOptions o)
            (computeAttrs s m env.now) ev hc hev hpf]
          exact ⟨by simp [hne], fun h => absurd h (by simp)⟩
        | false =>
          rw [afterUpdate_postFail_false s env m (mergedOptions o)
            (computeAttrs s m env.now) ev hc hev hpf]
          exact ⟨by simp [hne], fun h => absurd h (by simp)⟩

/-- Fixture for the C1 witness: zero affected rows, strict confirmation
requested. -/
def c1Env : Env := { wEnv with resp := [] }

/-- Fixture for the C1 witness. -/
def c1Opts : DestroyOptions := { emptyOptions with require := true }

/-- Witness instantiating the C1 theorem on concrete input. -/
theorem destroy_noRowsDeleted_iff_witness :
    wModel.softDelete = true ∧ c1Opts.hardDelete = false ∧ c1Opts.require = true ∧
    (((destroy defaultSettings c1Env wModel (some c1Opts)).result =
        DestroyResult.noRowsDeleted ↔
      preFail defaultSettings c1Env = false ∧ c1Env.resp = []) ∧
    ((destroy defaultSettings c1Env wModel (some c1Opts)).result =
        DestroyResult.noRowsDeleted →
      (destroy defaultSettings c1Env wModel (some c1Opts)).model = wModel ∧
      (destroy defaultSettings c1Env wModel (some c1Opts)).effects =
        preEvents defaultSettings (computeAttrs defaultSettings wModel c1Env.now)
            (mergedOptions c1Opts) ++
          [updateEffect wModel (mergedOptions c1Opts)
            (computeAttrs defaultSettings wModel c1Env.now)] ∧
      (destroy defaultSettings c1Env wModel (some c1Opts)).options =
        mergedOptions c1Opts)) :=
  ⟨rfl, rfl, rfl,
    destroy_noRowsDeleted_iff defaultSettings c1Env wModel c1Opts rfl rfl rfl⟩

/-- C6: when the model is not soft-deletable or the caller passed
`hardDelete: true`, the destroy call delegates entirely to the original
prototype destroy with the same options object: the whole outcome is
the delegation effect alone, so no marker attributes, no marker write,
no soft-delete lifecycle events, and the model is untouched. -/
theorem destroy_delegates_hard (s : Settings) (env : Env) (m : Model) (o : DestroyOptions)
    (h : m.softDelete = false ∨ o.hardDelete = true) :
    destroy s env m (some o) =
      { result := DestroyResult.delegated
        effects := [Effect.hardDestroy o]
        options := o
        model := m } := by
  have hb : (m.softDelete && !o.hardDelete) = false := by
    rcases h with h | h <;> simp [h]
  exact destroy_hard_eq s env m o hb

/-- Fixture for the C6 witness: a hard-delete request. -/
def c6Opts : DestroyOptions := { emptyOptions with hardDelete := true }

/-- Witness instantiating the C6 theorem on concrete input. -/
theorem destroy_delegates_hard_witness :
    (wModel.softDelete = false ∨ c6Opts.hardDelete = true) ∧
    destroy defaultSettings wEnv wModel (some c6Opts) =
      { result := DestroyResult.delegated
        effects := [Effect.hardDestroy c6Opts]
        options := c6Opts
        model := wModel } :=
  ⟨Or.inr rfl, destroy_delegates_hard defaultSettings wEnv wModel c6Opts (Or.inr rfl)⟩

/-- C7: on the soft-delete path the enabled pre-operation events are
emitted (in the fixed order destroying, saving, updating, per the
events configuration) before the update is issued: when some enabled
pre-event handler rejects, the call settles with the event error and
the effect trace consists of the pre-event emissions only, so the
database update is never executed; when no handler rejects, the trace
is exactly the pre-event emissions immediately followed by the update. -/
theorem destroy_pre_events_gate (s : Settings) (env : Env) (m : Model) (o : DestroyOptions)
    (hsd : m.softDelete = true) (hhd : o.hardDelete = false) :
    (preFail s env = true →
      (destroy s env m (some o)).result = DestroyResult.eventError ∧
      (destroy s env m (some o)).effects =
        preEvents s (computeAttrs s m env.now) (mergedOptions o) ∧
      ∀ e ∈ (destroy s env m (some o)).effects, isPreEventEffect e = true) ∧
    (preFail s env = false →
      ∃ rest,
        (destroy s env m (some o)).effects =
          preEvents s (computeAttrs s m env.now) (mergedOptions o) ++
            updateEffect m (mergedOptions o) (computeAttrs s m env.now) :: rest) := by
  have hd := destroy_soft_eq s env m o hsd hhd
  cases hp : preFail s env with
  | true =>
    rw [hd, softDestroy_preFail_true s env m (mergedOptions o) hp]
    refine ⟨fun _ => ⟨rfl, rfl, fun e he => (mem_preEvents he).1⟩, fun h => ?_⟩
    cases h
  | false =>
    rw [hd, softDestroy_preFail_false s env m (mergedOptions o) hp]
    refine ⟨(fun h => nomatch h), fun _ => ?_⟩
    cases hc : (env.resp.isEmpty && (mergedOptions o).require) with
    | true =>
      have h1 : env.resp.isEmpty = true := (Bool.and_eq_true_iff.mp hc).1
      have h2 : (mergedOptions o).require = true := (Bool.and_eq_true_iff.mp hc).2
      rw [afterUpdate_noRows s env m (mergedOptions o) (computeAttrs s m env.now) h1 h2]
      exact ⟨[], by simp⟩
    | false =>
      cases hev : s.events with
      | none =>
        rw [afterUpdate_proceed_none s env m (mergedOptions o)
          (computeAttrs s m env.now) hc hev]
        exact ⟨cascadeStep env m.dependents (mergedOptions o).transacting, by simp⟩
      | some ev =>
        cases hpf : postFail ev env with
        | true =>
          rw [afterUpdate_postFail_true s env m (mergedOptions o)
            (computeAttrs s m env.now) ev hc hev hpf]
          exact ⟨postEvents ev env.resp
            { mergedOptions o with previousAttributes := some m.attributes }, by simp⟩
        | false =>
          rw [afterUpdate_postFail_false s env m (mergedOptions o)
            (computeAttrs s m env.now) ev hc hev hpf]
          exact ⟨postEvents ev env.resp
              { mergedOptions o with previousAttributes := some m.attributes } ++
              cascadeStep env m.dependents (mergedOptions o).transacting, by simp⟩

/-- Fixture for the C7 witness: the destroying handler rejects. -/
def c7Env : Env := { wEnv with destroyingFail := true }

/-- Witness instantiating the C7 theorem on concrete input. -/
theorem destroy_pre_events_gate_witness :
    wModel.softDelete = true ∧ emptyOptions.hardDelete = false ∧
    ((preFail defaultSettings c7Env = true →
      (destroy defaultSettings c7Env wModel (some emptyOptions)).result =
        DestroyResult.eventError ∧
      (destroy defaultSettings c7Env wModel (some emptyOptions)).effects =
        preEvents defaultSettings (computeAttrs defaultSettings wModel c7Env.now)
          (mergedOptions emptyOptions) ∧
      ∀ e ∈ (destroy defaultSettings c7Env wModel (some emptyOptions)).effects,
        isPreEventEffect e = true) ∧
    (preFail defaultSettings c7Env = false →
      ∃ rest,
        (destroy defaultSettings c7Env wModel (some emptyOptions)).effects =
          preEvents defaultSettings (computeAttrs defaultSettings wModel c7Env.now)
              (mergedOptions emptyOptions) ++
            updateEffect wModel (mergedOptions emptyOptions)
              (computeAttrs defaultSettings wModel c7Env.now) :: rest)) :=
  ⟨rfl, rfl,
    destroy_pre_events_gate defaultSettings c7Env wModel emptyOptions rfl rfl⟩

theorem pre_not_post {e : Effect} (h : isPreEventEffect e = true) :
    isPostEventEffect e = false := by
  cases e <;> first | rfl | cases h

theorem post_not_pre {e : Effect} (h : isPostEventEffect e = true) :
    isPreEventEffect e = false := by
  cases e <;> first | rfl | cases h

/-- Settings with events globally disabled (a falsy `settings.events`). -/
def sNoEv : Settings := { defaultSettings with events := none }

/-- Fixture for the C5 evaluation: a soft-deletable model whose
identifier attribute is `uuid`, not `id`; its `uuid` value is 7 while
its `id` column holds 3. -/
def c5Model : Model :=
  { softDelete := true
    tableName := "things"
    idAttribute := "uuid"
    attributes := [("uuid", Value.num 7), ("id", Value.num 3)]
    prevAttributes := [("uuid", Value.num 7), ("id", Value.num 3)]
    changedState := false
    defaults := none
    dependents := []
    format := fun a => a }

/-- Fixture for the C5 evaluation: a caller-supplied transaction. -/
def c5Opts : DestroyOptions := { emptyOptions with transacting := some 3 }

/-- C5 evaluation at the failing input: the update joins the supplied
transaction and returns the `idAttribute` column, but its where clause
pairs the hard-coded column name `id` with the value read through
`idAttribute` (7, the uuid), although the identifier attribute of the
model is `uuid`, not `id`.  The claim and the spec say the update
matches on the column named by `idAttribute`. -/
theorem destroy_update_where_hardcoded_id :
    (destroy sNoEv wEnv c5Model (some c5Opts)).effects =
      [Effect.dbUpdate "things" (some 3) [("deleted_at", Value.date 99)] "uuid" "id"
        (some (Value.num 7))] ∧
    c5Model.idAttribute ≠ "id" := by
  exact ⟨by decide, by decide⟩

/-- C8 counterexample: with events globally disabled the destroy
pipeline still proceeds to the cascade step: the dependent relation is
fetched and its members are destroyed, although the claim says the
operation stops after the update step. -/
theorem destroy_events_disabled_cascade_counterexample :
    sNoEv.events = none ∧
    Effect.relationFetch "items" none ∈
      (destroy sNoEv wEnv wModel (some emptyOptions)).effects ∧
    Effect.childDestroy 5 none ∈
      (destroy sNoEv wEnv wModel (some emptyOptions)).effects := by
  exact ⟨rfl, by decide, by decide⟩

/-- C8 (amended): with events globally disabled, a soft delete leaves
the in-memory model untouched (attributes not mutated, change tracking
not reset), adds no previous-attributes key to the options, and emits
no lifecycle events at all; however, unless the zero-rows require check
fails, the operation still proceeds to the cascade step after the
update. -/
theorem destroy_events_disabled_frame (s : Settings) (env : Env) (m : Model)
    (o : DestroyOptions) (hsd : m.softDelete = true) (hhd : o.hardDelete = false)
    (hev : s.events = none) :
    (destroy s env m (some o)).model = m ∧
    (destroy s env m (some o)).options = mergedOptions o ∧
    (∀ e ∈ (destroy s env m (some o)).effects,
      isPreEventEffect e = false ∧ isPostEventEffect e = false) ∧
    ((env.resp.isEmpty && o.require) = false →
      (destroy s env m (some o)).result = DestroyResult.ok ∧
      (destroy s env m (some o)).effects =
        updateEffect m (mergedOptions o) (computeAttrs s m env.now) ::
          cascadeStep env m.dependents o.transacting) := by
  have hp : preFail s env = false := by
    unfold preFail
    rw [hev]
  have hpre0 : preEvents s (computeAttrs s m env.now) (mergedOptions o) = [] := by
    unfold preEvents
    rw [hev]
  have hd := destroy_soft_eq s env m o hsd hhd
  rw [hd, softDestroy_preFail_false s env m (mergedOptions o) hp]
  cases hc : (env.resp.isEmpty && (mergedOptions o).require) with
  | true =>
    rw [afterUpdate_noRows s env m (mergedOptions o) (computeAttrs s m env.now)
      (Bool.and_eq_true_iff.mp hc).1 (Bool.and_eq_true_iff.mp hc).2]
    refine ⟨rfl, rfl, ?_, ?_⟩
    · intro e he
      rw [hpre0] at he
      simp only [List.nil_append, List.mem_singleton] at he
      subst he
      exact ⟨rfl, rfl⟩
    · intro h
      have hc2 : (env.resp.isEmpty && o.require) = true := hc
      rw [h] at hc2
      cases hc2
  | false =>
    rw [afterUpdate_proceed_none s env m (mergedOptions o)
      (computeAttrs s m env.now) hc hev]
    refine ⟨rfl, rfl, ?_, fun _ => ⟨rfl, by rw [hpre0]; rfl⟩⟩
    intro e he
    rw [hpre0] at he
    simp only [List.nil_append, List.append_nil, List.mem_append,
      List.mem_singleton] at he
    rcases he with he | he
    · subst he
      exact ⟨rfl, rfl⟩
    · exact mem_cascadeStep he

/-- Witness instantiating the C8 amended theorem on concrete input. -/
theorem destroy_events_disabled_frame_witness :
    wModel.softDelete = true ∧ emptyOptions.hardDelete = false ∧ sNoEv.events = none ∧
    ((destroy sNoEv wEnv wModel (some emptyOptions)).model = wModel ∧
    (destroy sNoEv wEnv wModel (some emptyOptions)).options = mergedOptions emptyOptions ∧
    (∀ e ∈ (destroy sNoEv wEnv wModel (some emptyOptions)).effects,
      isPreEventEffect e = false ∧ isPostEventEffect e = false) ∧
    ((wEnv.resp.isEmpty && emptyOptions.require) = false →
      (destroy sNoEv wEnv wModel (some emptyOptions)).result = DestroyResult.ok ∧
      (destroy sNoEv wEnv wModel (some emptyOptions)).effects =
        updateEffect wModel (mergedOptions emptyOptions)
            (computeAttrs sNoEv wModel wEnv.now) ::
          cascadeStep wEnv wModel.dependents emptyOptions.transacting)) :=
  ⟨rfl, rfl, rfl,
    destroy_events_disabled_frame sNoEv wEnv wModel emptyOptions rfl rfl rfl⟩

/-- Settings configuring a sentinel column named `active`. -/
def sSent : Settings := { defaultSettings with sentinel := some "active" }

/-- C9 counterexample: on a soft-deletable type with a configured
sentinel, an instance whose own defaults already bind the sentinel
field keeps its own value after the initialize step: the sentinel
default is `false` here, not `true` as the claim states. -/
theorem initDefaults_existing_default_counterexample :
    initDefaults sSent true (some [("active", Value.bool false)]) =
      some [("active", Value.bool false)] ∧
    objGet ((initDefaults sSent true (some [("active", Value.bool false)])).getD [])
        "active" = some (Value.bool false) ∧
    some (Value.bool false) ≠ some (Value.bool true) := by
  exact ⟨by decide, by decide, by decide⟩

/-- C9 (amended): when a sentinel field is configured and the type is
soft-deletable, the initialize step merges the binding sentinel-to-true
underneath the existing defaults: the sentinel field defaults to true
when the instance defaults do not bind it, an existing binding wins,
and every other key keeps its existing default; types that are not
soft-deletable, and configurations without a sentinel, leave the
defaults unchanged. -/
theorem initDefaults_sentinel_characterization (s : Settings) (sd : Bool)
    (d0 : Option Obj) :
    (∀ snt, s.sentinel = some snt → sd = true →
      initDefaults s sd d0 = some (mergeObj [(snt, Value.bool true)] (d0.getD [])) ∧
      (objGet (d0.getD []) snt = none →
        objGet ((initDefaults s sd d0).getD []) snt = some (Value.bool true)) ∧
      (∀ v, objGet (d0.getD []) snt = some v →
        objGet ((initDefaults s sd d0).getD []) snt = some v) ∧
      (∀ k, k ≠ snt →
        objGet ((initDefaults s sd d0).getD []) k = objGet (d0.getD []) k)) ∧
    (sd = false → initDefaults s sd d0 = d0) ∧
    (s.sentinel = none → initDefaults s sd d0 = d0) := by
  refine ⟨?_, ?_, ?_⟩
  · intro snt hs hsd
    subst hsd
    have heq : initDefaults s true d0 =
        some (mergeObj [(snt, Value.bool true)] (d0.getD [])) := by
      unfold initDefaults
      rw [hs]
      rfl
    refine ⟨heq, ?_, ?_, ?_⟩
    · intro hn
      rw [heq]
      simp only [Option.getD_some]
      rw [objGet_mergeObj, hn]
      simp [objGet]
    · intro v hv
      rw [heq]
      simp only [Option.getD_some]
      rw [objGet_mergeObj, hv]
    · intro k hk
      rw [heq]
      simp only [Option.getD_some]
      rw [objGet_mergeObj]
      cases hv : objGet (d0.getD []) k
      · simp [objGet, hk, Ne.symm hk]
      · rfl
  · intro hsd
    subst hsd
    unfold initDefaults
    cases hs : s.sentinel
    · rfl
    · rfl
  · intro hs
    unfold initDefaults
    rw [hs]

/-- Witness instantiating the C9 amended theorem on concrete inputs:
a configured sentinel on a soft-deletable instance, the same settings
on a not-soft-deletable instance, and a configuration without a
sentinel. -/
theorem initDefaults_sentinel_characterization_witness :
    (sSent.sentinel = some "active" ∧
      (initDefaults sSent true (some [("x", Value.num 1)]) =
        some (mergeObj [("active", Value.bool true)]
          ((some [("x", Value.num 1)] : Option Obj).getD [])) ∧
      (objGet ((some [("x", Value.num 1)] : Option Obj).getD []) "active" = none →
        objGet ((initDefaults sSent true (some [("x", Value.num 1)])).getD [])
          "active" = some (Value.bool true)) ∧
      (∀ v, objGet ((some [("x", Value.num 1)] : Option Obj).getD []) "active" = some v →
        objGet ((initDefaults sSent true (some [("x", Value.num 1)])).getD [])
          "active" = some v) ∧
      (∀ k, k ≠ "active" →
        objGet ((initDefaults sSent true (some [("x", Value.num 1)])).getD []) k =
          objGet ((some [("x", Value.num 1)] : Option Obj).getD []) k))) ∧
    initDefaults sSent false (some [("x", Value.num 1)]) = some [("x", Value.num 1)] ∧
    defaultSettings.sentinel = none ∧
    initDefaults defaultSettings true (some [("x", Value.num 1)]) =
      some [("x", Value.num 1)] :=
  ⟨⟨rfl,
    (initDefaults_sentinel_characterization sSent true
      (some [("x", Value.num 1)])).1 "active" rfl rfl⟩,
   (initDefaults_sentinel_characterization sSent false
      (some [("x", Value.num 1)])).2.1 rfl,
   rfl,
   (initDefaults_sentinel_characterization defaultSettings true
      (some [("x", Value.num 1)])).2.2 rfl⟩

/-- Fixture for the C10 counterexample: zero affected rows under
strict confirmation. -/
def c10Env : Env := { wEnv with resp := [] }

/-- Fixture for the C10 counterexample. -/
def c10Opts : DestroyOptions := { emptyOptions with require := true }

/-- C10 counterexample: with events enabled, the write executed (the
update effect is in the trace) but the zero-rows require check failed,
so no previousAttributes key is added to the options, although the
claim states the key is added after the write whenever events are
enabled. -/
theorem destroy_previousAttributes_counterexample :
    defaultSettings.events.isSome = true ∧
    updateEffect wModel (mergedOptions c10Opts)
        (computeAttrs defaultSettings wModel c10Env.now) ∈
      (destroy defaultSettings c10Env wModel (some c10Opts)).effects ∧
    (destroy defaultSettings c10Env wModel (some c10Opts)).options.previousAttributes =
      none := by
  exact ⟨rfl, by decide, by decide⟩

/-- C10 (amended): on the soft-delete path the caller-supplied options
record is mutated in place: the keys method = update, patch = true and
softDelete = true are merged into it before any event emission (they
are present on the final caller-visible record in every branch), every
pre-operation event emission carries exactly that merged record, and
when events are enabled and the operation passes the pre-event and
zero-rows checks, the record is further extended with a
previousAttributes snapshot of the pre-destroy attributes, every
post-operation event emission carrying that same extended record,
which is also the final caller-visible one. -/
theorem destroy_options_mutation (s : Settings) (env : Env) (m : Model)
    (o : DestroyOptions) (hsd : m.softDelete = true) (hhd : o.hardDelete = false) :
    ((destroy s env m (some o)).options.method = some "update" ∧
     (destroy s env m (some o)).options.patch = some true ∧
     (destroy s env m (some o)).options.softDelete = some true) ∧
    (∀ e ∈ (destroy s env m (some o)).effects, isPreEventEffect e = true →
      effectOptions e = some (mergedOptions o)) ∧
    (∀ ev, s.events = some ev → preFail s env = false →
      (env.resp.isEmpty && o.require) = false →
      (destroy s env m (some o)).options =
        { mergedOptions o with previousAttributes := some m.attributes } ∧
      (∀ e ∈ (destroy s env m (some o)).effects, isPostEventEffect e = true →
        effectOptions e =
          some { mergedOptions o with previousAttributes := some m.attributes })) := by
  have hd := destroy_soft_eq s env m o hsd hhd
  cases hp : preFail s env with
  | true =>
    rw [hd, softDestroy_preFail_true s env m (mergedOptions o) hp]
    refine ⟨⟨rfl, rfl, rfl⟩, ?_, ?_⟩
    · intro e he _
      exact (mem_preEvents he).2
    · intro ev _ hpf
      cases hpf
  | false =>
    rw [hd, softDestroy_preFail_false s env m (mergedOptions o) hp]
    cases hc : (env.resp.isEmpty && (mergedOptions o).require) with
    | true =>
      rw [afterUpdate_noRows s env m (mergedOptions o) (computeAttrs s m env.now)
        (Bool.and_eq_true_iff.mp hc).1 (Bool.and_eq_true_iff.mp hc).2]
      refine ⟨⟨rfl, rfl, rfl⟩, ?_, ?_⟩
      · intro e he hpre
        simp only [List.mem_append, List.mem_singleton] at he
        rcases he with he | he
        · exact (mem_preEvents he).2
        · subst he
          cases hpre
      · intro ev _ _ hcf
        have hc2 : (env.resp.isEmpty && o.require) = true := hc
        rw [hcf] at hc2
        cases hc2
    | false =>
      cases hev : s.events with
      | none =>
        rw [afterUpdate_proceed_none s env m (mergedOptions o)
          (computeAttrs s m env.now) hc hev]
        refine ⟨⟨rfl, rfl, rfl⟩, ?_, ?_⟩
        · intro e he hpre
          simp only [List.append_assoc, List.mem_append, List.mem_singleton] at he
          rcases he with he | he | he
          · exact (mem_preEvents he).2
          · subst he
            cases hpre
          · rw [(mem_cascadeStep he).1] at hpre
            cases hpre
        · intro ev hev2
          cases hev2
      | some ev =>
        cases hpf : postFail ev env with
        | true =>
          rw [afterUpdate_postFail_true s env m (mergedOptions o)
            (computeAttrs s m env.now) ev hc hev hpf]
          refine ⟨⟨rfl, rfl, rfl⟩, ?_, ?_⟩
          · intro e he hpre
            simp only [List.append_assoc, List.mem_append, List.mem_singleton] at he
            rcases he with he | he | he
            · exact (mem_preEvents he).2
            · subst he
              cases hpre
            · rw [post_not_pre (mem_postEvents he).1] at hpre
              cases hpre
          · intro ev2 hev2 _ _
            injection hev2 with hev3
            subst hev3
            refine ⟨rfl, ?_⟩
            intro e he hpost
            simp only [List.append_assoc, List.mem_append, List.mem_singleton] at he
            rcases he with he | he | he
            · rw [pre_not_post (mem_preEvents he).1] at hpost
              cases hpost
            · subst he
              cases hpost
            · exact (mem_postEvents he).2
        | false =>
          rw [afterUpdate_postFail_false s env m (mergedOptions o)
            (computeAttrs s m env.now) ev hc hev hpf]
          refine ⟨⟨rfl, rfl, rfl⟩, ?_, ?_⟩
          · intro e he hpre
            simp only [List.append_assoc, List.mem_append, List.mem_singleton] at he
            rcases he with he | he | he | he
            · exact (mem_preEvents he).2
            · subst he
              cases hpre
            · rw [post_not_pre (mem_postEvents he).1] at hpre
              cases hpre
            · rw [(mem_cascadeStep he).1] at hpre
              cases hpre
          · intro ev2 hev2 _ _
            injection hev2 with hev3
            subst hev3
            refine ⟨rfl, ?_⟩
            intro e he hpost
            simp only [List.append_assoc, List.mem_append, List.mem_singleton] at he
            rcases he with he | he | he | he
            · rw [pre_not_post (mem_preEvents he).1] at hpost
              cases hpost
            · subst he
              cases hpost
            · exact (mem_postEvents he).2
            · rw [(mem_cascadeStep he).2] at hpost
              cases hpost

/-- Witness instantiating the C10 amended theorem on concrete input. -/
theorem destroy_options_mutation_witness :
    wModel.softDelete = true ∧ emptyOptions.hardDelete = false ∧
    (((destroy defaultSettings wEnv wModel (some emptyOptions)).options.method =
        some "update" ∧
      (destroy defaultSettings wEnv wModel (some emptyOptions)).options.patch =
        some true ∧
      (destroy defaultSettings wEnv wModel (some emptyOptions)).options.softDelete =
        some true) ∧
    (∀ e ∈ (destroy defaultSettings wEnv wModel (some emptyOptions)).effects,
      isPreEventEffect e = true → effectOptions e = some (mergedOptions emptyOptions)) ∧
    (∀ ev, defaultSettings.events = some ev →
      preFail defaultSettings wEnv = false →
      (wEnv.resp.isEmpty && emptyOptions.require) = false →
      (destroy defaultSettings wEnv wModel (some emptyOptions)).options =
        { mergedOptions emptyOptions with
            previousAttributes := some wModel.attributes } ∧
      (∀ e ∈ (destroy defaultSettings wEnv wModel (some emptyOptions)).effects,
        isPostEventEffect e = true →
        effectOptions e =
          some { mergedOptions emptyOptions with
                   previousAttributes := some wModel.attributes }))) :=
  ⟨rfl, rfl,
    destroy_options_mutation defaultSettings wEnv wModel emptyOptions rfl rfl⟩

/-- Fixture for the C3 counterexample: an active transaction context. -/
def c3Opts : DestroyOptions := { emptyOptions with transacting := some 7 }

/-- C3 counterexample: with an active transaction (handle 7), a
cascading destroy invokes the dependent fetch with no options at all,
so the fetch does not carry the transaction context (the trace holds
`relationFetch "items" none` and no `relationFetch "items" (some 7)`),
while the recursive destroy of each fetched member does carry it. -/
theorem cascade_fetch_no_transaction_counterexample :
    Effect.relationFetch "items" none ∈
      (destroy defaultSettings wEnv wModel (some c3Opts)).effects ∧
    Effect.relationFetch "items" (some 7) ∉
      (destroy defaultSettings wEnv wModel (some c3Opts)).effects ∧
    Effect.childDestroy 5 (some 7) ∈
      (destroy defaultSettings wEnv wModel (some c3Opts)).effects := by
  exact ⟨by decide, by decide, by decide⟩

/-- C3 (amended): after the soft-delete write and post-events, the
cascade handles every name of the dependents list: a relation whose
type is belongsToMany, or whose related target is not soft-deletable,
contributes nothing; every remaining relation is fetched without
forwarding any options (so the active transaction context is NOT
propagated to the fetch) and destroy is invoked on each fetched
instance with the transaction context propagated; a relation that
resolves to no rows (a null model or an empty collection) is a no-op
and the operation still resolves successfully. -/
theorem destroy_cascade_characterization (s : Settings) (env : Env) (m : Model)
    (o : DestroyOptions) (hsd : m.softDelete = true) (hhd : o.hardDelete = false)
    (hpre : preFail s env = false) (hpost : postFailS s env = false)
    (hnr : (env.resp.isEmpty && o.require) = false) :
    (destroy s env m (some o)).result = DestroyResult.ok ∧
    (destroy s env m (some o)).effects =
      preEvents s (computeAttrs s m env.now) (mergedOptions o) ++
        [updateEffect m (mergedOptions o) (computeAttrs s m env.now)] ++
        postStep s env m (mergedOptions o) ++
        m.dependents.flatMap (cascadeOne env o.transacting) ∧
    (∀ d, (env.relations d).relType = "belongsToMany" →
      cascadeOne env o.transacting d = []) ∧
    (∀ d, (env.relations d).targetSoftDelete = false →
      cascadeOne env o.transacting d = []) ∧
    (∀ d, (env.relations d).targetSoftDelete = true →
      (env.relations d).relType ≠ "belongsToMany" →
      cascadeOne env o.transacting d =
        Effect.relationFetch d none ::
          childDestroys (env.relations d).fetch o.transacting) ∧
    childDestroys FetchResult.modelNone o.transacting = [] ∧
    childDestroys (FetchResult.collection []) o.transacting = [] := by
  have hchar1 : ∀ d, (env.relations d).relType = "belongsToMany" →
      cascadeOne env o.transacting d = [] := by
    intro d h
    unfold cascadeOne
    simp [h]
  have hchar2 : ∀ d, (env.relations d).targetSoftDelete = false →
      cascadeOne env o.transacting d = [] := by
    intro d h
    unfold cascadeOne
    simp [h]
  have hchar3 : ∀ d, (env.relations d).targetSoftDelete = true →
      (env.relations d).relType ≠ "belongsToMany" →
      cascadeOne env o.transacting d =
        Effect.relationFetch d none ::
          childDestroys (env.relations d).fetch o.transacting := by
    intro d h1 h2
    unfold cascadeOne
    simp [h1, bne_iff_ne, h2]
  have hd := destroy_soft_eq s env m o hsd hhd
  have hc : (env.resp.isEmpty && (mergedOptions o).require) = false := hnr
  rw [hd, softDestroy_preFail_false s env m (mergedOptions o) hpre]
  cases hev : s.events with
  | none =>
    rw [afterUpdate_proceed_none s env m (mergedOptions o)
      (computeAttrs s m env.now) hc hev]
    refine ⟨rfl, ?_, hchar1, hchar2, hchar3, rfl, rfl⟩
    rw [cascadeStep_eq_flatMap]
    unfold postStep
    rw [hev]
    simp only [List.append_nil]
    rfl
  | some ev =>
    have hpf : postFail ev env = false := by
      unfold postFailS at hpost
      rw [hev] at hpost
      exact hpost
    rw [afterUpdate_postFail_false s env m (mergedOptions o)
      (computeAttrs s m env.now) ev hc hev hpf]
    refine ⟨rfl, ?_, hchar1, hchar2, hchar3, rfl, rfl⟩
    rw [cascadeStep_eq_flatMap]
    unfold postStep
    rw [hev]
    rfl

/-- Witness instantiating the C3 amended theorem on concrete input. -/
theorem destroy_cascade_characterization_witness :
    wModel.softDelete = true ∧ c3Opts.hardDelete = false ∧
    preFail defaultSettings wEnv = false ∧
    postFailS defaultSettings wEnv = false ∧
    (wEnv.resp.isEmpty && c3Opts.require) = false ∧
    ((destroy defaultSettings wEnv wModel (some c3Opts)).result = DestroyResult.ok ∧
    (destroy defaultSettings wEnv wModel (some c3Opts)).effects =
      preEvents defaultSettings (computeAttrs defaultSettings wModel wEnv.now)
          (mergedOptions c3Opts) ++
        [updateEffect wModel (mergedOptions c3Opts)
          (computeAttrs defaultSettings wModel wEnv.now)] ++
        postStep defaultSettings wEnv wModel (mergedOptions c3Opts) ++
        wModel.dependents.flatMap (cascadeOne wEnv c3Opts.transacting) ∧
    (∀ d, (wEnv.relations d).relType = "belongsToMany" →
      cascadeOne wEnv c3Opts.transacting d = []) ∧
    (∀ d, (wEnv.relations d).targetSoftDelete = false →
      cascadeOne wEnv c3Opts.transacting d = []) ∧
    (∀ d, (wEnv.relations d).targetSoftDelete = true →
      (wEnv.relations d).relType ≠ "belongsToMany" →
      cascadeOne wEnv c3Opts.transacting d =
        Effect.relationFetch d none ::
          childDestroys (wEnv.relations d).fetch c3Opts.transacting) ∧
    childDestroys FetchResult.modelNone c3Opts.transacting = [] ∧
    childDestroys (FetchResult.collection []) c3Opts.transacting = []) :=
  ⟨rfl, rfl, rfl, rfl, rfl,
    destroy_cascade_characterization defaultSettings wEnv wModel c3Opts
      rfl rfl rfl rfl rfl⟩

end BookshelfParanoia
